import Mathlib

/-!
Verification development for a Telegram movie-catalog bot
(`database.py` + `handlers.py`).

Shallow embedding conventions:
* Python strings are `List Char` (`Str`); Python `str.strip`, `str.isdigit`,
  `str.startswith`, `in` (substring) and `str.split` are modelled below.
  `str.isdigit` is modelled on the ASCII digits `0`–`9` (the inputs the bot
  documents and the claims mention are ASCII).
* The SQLite store is a record of three row lists kept in insertion order
  (`rowid` order).  `INSERT OR REPLACE` replaces a row only when a UNIQUE
  constraint conflicts, which in this schema happens only on `movies.code`;
  `videos` and `pending_movies` have no UNIQUE column besides the
  autoincrement id, so there the statement is a plain insert.
* `ORDER BY date DESC` is an insertion sort by the stored `date` field;
  SQL `LIKE '%x%'` is an ASCII-case-insensitive substring test.
* The per-user in-memory dicts `pending_movies` / `user_states` are a single
  user's `Option Session` / `Option NavState` (both dicts are keyed by user id
  and the handler only touches the sending user's entry).
* A `sqlite3.Error` during the catalog write (`add_movie` returning `False`)
  is the boolean parameter `writeOk` of the handler.
-/

namespace MovieBot

abbrev Str := List Char

/-- Python `\w` on the caption alphabet: letters, digits and underscore
(`re.findall(r'#\w+', text, re.IGNORECASE)` in
`VideoDatabase.extract_hashtags_as_codes`). -/
def isWordChar (c : Char) : Bool := c.isAlphanum || c = '_'

/-- Python `str.isdigit`: non-empty and every character a digit. -/
def pyIsDigit (s : Str) : Bool := !s.isEmpty && s.all Char.isDigit

/-- Python `str.strip()`: drop leading and trailing whitespace. -/
def stripWs (s : Str) : Str :=
  ((s.dropWhile Char.isWhitespace).reverse.dropWhile Char.isWhitespace).reverse

/-- Python `needle in hay` / SQL `LIKE` body: contiguous-substring test. -/
def containsSub (needle hay : Str) : Bool :=
  match hay with
  | [] => needle.isEmpty
  | _ :: t => needle.isPrefixOf hay || containsSub needle t

/-- ASCII lowering, the case folding SQLite's `LIKE` applies. -/
def asciiLower (c : Char) : Char :=
  if 'A' ≤ c ∧ c ≤ 'Z' then Char.ofNat (c.toNat + 32) else c

/-- SQL `codes LIKE '%hashtag%'`: ASCII-case-insensitive substring. -/
def likeContains (needle hay : Str) : Bool :=
  containsSub (needle.map asciiLower) (hay.map asciiLower)

/-- Python `str.split()` with no argument: split on whitespace runs,
dropping empty pieces. -/
def splitWs (s : Str) : List Str :=
  (s.splitOnP (fun c => c.isWhitespace)).filter (· ≠ [])

/-- Python `' '.join`. -/
def joinSpaces (l : List Str) : Str := List.intercalate [' '] l

/-- Python `s.replace(pat, '')` for a non-empty pattern: delete every
(leftmost, non-overlapping) occurrence of `pat`. -/
def removeAll (pat : Str) (s : Str) : Str :=
  match s with
  | [] => []
  | c :: t =>
    if pat ≠ [] ∧ pat.isPrefixOf (c :: t) then removeAll pat ((c :: t).drop pat.length)
    else c :: removeAll pat t
termination_by s.length
decreasing_by
  · simp only [List.length_drop, List.length_cons]
    rename_i h
    cases pat with
    | nil => exact absurd rfl h.1
    | cons p ps => simp only [List.length_cons]; omega
  · simp

/-- Python `s.split(sep)[0]` for a non-empty separator: the text before the
first occurrence of `sep` (all of `s` when `sep` does not occur). -/
def takeBeforeSub (sep : Str) (s : Str) : Str :=
  match s with
  | [] => []
  | c :: t => if sep.isPrefixOf s then [] else c :: takeBeforeSub sep t

/-- Python `s.split(sep)[-1]` for a one-character separator: the text after
the last occurrence of the character (all of `s` when it does not occur). -/
def afterLastChar (sep : Char) (s : Str) : Str :=
  match s with
  | [] => []
  | c :: t => if sep ∈ t then afterLastChar sep t
              else if c = sep then t else c :: t

/-! ## The hashtag scanner

`re.findall(r'#\w+', text)` scans left to right; at a `#` followed by a word
character it takes the maximal run of word characters as one match and
resumes after it, otherwise it advances one character.  `scanAux` is that
scanner written with an explicit in-token state (structurally recursive, so
concrete captions evaluate by `decide`); `scanSpec` below is the
take-the-maximal-run formulation, and the two are proved equal. -/

/-- One-pass hashtag scanner.  `acc = none`: outside a candidate match;
`acc = some cur`: inside a match started by `#`, `cur` holding the word
characters read so far in reverse. -/
def scanAux : Option Str → Str → List Str
  | none, [] => []
  | some cur, [] => if cur.isEmpty then [] else [('#' :: cur.reverse)]
  | none, c :: rest =>
    if c = '#' then scanAux (some []) rest else scanAux none rest
  | some cur, c :: rest =>
    if isWordChar c then scanAux (some (c :: cur)) rest
    else
      (if cur.isEmpty then [] else [('#' :: cur.reverse)]) ++
        (if c = '#' then scanAux (some []) rest else scanAux none rest)

/-- All `#token` matches of a text, in order of occurrence, duplicates kept
(`re.findall(r'#\w+', text, re.IGNORECASE)`; the flag changes nothing, the
pattern has no cased literal). -/
def scanHashtags (s : Str) : List Str := scanAux none s

/-- Whether a text starts with a word character. -/
def headWord (s : Str) : Bool :=
  match s with
  | [] => false
  | c :: _ => isWordChar c

/-- The leftmost-maximal-match formulation of the same scan: at a `#`
followed by a word character, the maximal word-character run after the `#`
is a match and the scan resumes right after it. -/
def scanSpec : Str → List Str
  | [] => []
  | c :: rest =>
    if c = '#' ∧ headWord rest then
      ('#' :: rest.takeWhile isWordChar) :: scanSpec (rest.dropWhile isWordChar)
    else scanSpec rest
termination_by s => s.length
decreasing_by
  · simp only [List.length_cons]
    exact Nat.lt_succ_of_le (List.dropWhile_sublist _).length_le
  · simp

/-! ## The relational store (`database.py`)

Schema (`init_db`): `videos(id PK AUTOINCREMENT, chat_id, message_id,
file_id, caption, codes, date)` — no UNIQUE constraint besides the id;
`movies(id PK, code UNIQUE, title, category, channel_message_id,
channel_id, file_id)`; `pending_movies(id PK, code, channel_message_id,
channel_id, file_id, caption, date)` — again no UNIQUE besides the id.
Each list is kept in `rowid` (insertion) order. -/

structure VideoRow where
  chatId : Int
  messageId : Int
  fileId : Str
  caption : Str
  codes : Str
  date : Nat
deriving DecidableEq

structure MovieRow where
  code : Str
  title : Str
  category : Str
  channelMessageId : Int
  channelId : Int
  fileId : Str
deriving DecidableEq

structure PendingRow where
  code : Str
  channelMessageId : Int
  channelId : Int
  fileId : Str
  caption : Str
  date : Nat
deriving DecidableEq

structure DB where
  videos : List VideoRow
  movies : List MovieRow
  pending : List PendingRow
deriving DecidableEq

def emptyDB : DB := ⟨[], [], []⟩

/-- `VideoDatabase.extract_hashtags_as_codes`: the `#\w+` matches of the
caption joined by single spaces (`''` for a `None`/empty caption — the
scanner already yields `[]` there, so the `if not text` guard is absorbed). -/
def extract_hashtags_as_codes (text : Str) : Str := joinSpaces (scanHashtags text)

/-- `VideoDatabase.save_video`: `INSERT OR REPLACE INTO videos …`.  The
`videos` table has no UNIQUE column besides its autoincrement id, so the
statement never conflicts and simply appends a fresh row; `codes` is
re-derived from the caption. -/
def save_video (chatId messageId : Int) (fileId caption : Str) (date : Nat)
    (db : DB) : DB :=
  { db with videos := db.videos ++
      [⟨chatId, messageId, fileId, caption, extract_hashtags_as_codes caption, date⟩] }

/-- `VideoDatabase.get_movie_by_code`: `SELECT * FROM movies WHERE code = ?`,
first row or `None`. -/
def get_movie_by_code (code : Str) (db : DB) : Option MovieRow :=
  db.movies.find? (fun m => m.code = code)

/-- `VideoDatabase.add_movie`: `INSERT OR REPLACE INTO movies …`.  `code` is
UNIQUE, so a conflicting row is deleted and the new row inserted (with a
fresh id, hence at the end). -/
def add_movie (code title category : Str) (channelMessageId channelId : Int)
    (fileId : Str) (db : DB) : DB :=
  { db with movies := db.movies.filter (fun m => m.code ≠ code) ++
      [⟨code, title, category, channelMessageId, channelId, fileId⟩] }

/-- `ORDER BY date DESC` on the `videos` table, newest first. -/
def newestFirst (a b : VideoRow) : Prop := b.date ≤ a.date

instance : DecidableRel newestFirst := fun a b => Nat.decLe b.date a.date

instance : IsTotal VideoRow newestFirst :=
  ⟨fun a b => Nat.le_total b.date a.date⟩

instance : IsTrans VideoRow newestFirst :=
  ⟨fun _ _ _ h h2 => Nat.le_trans h2 h⟩

/-- `VideoDatabase.search_channel_by_hashtag`: rows of `videos` whose
`codes` column contains the hashtag as a substring (`LIKE '%hashtag%'`,
ASCII-case-insensitively), ordered by `date` descending. -/
def search_channel_by_hashtag (hashtag : Str) (db : DB) : List VideoRow :=
  (db.videos.insertionSort newestFirst).filter
    (fun v => likeContains hashtag v.codes)

/-- `VideoDatabase.add_pending_movie`: `INSERT OR REPLACE INTO
pending_movies …`.  `pending_movies.code` carries no UNIQUE constraint, so
the statement never conflicts and appends a fresh row. -/
def add_pending_movie (code : Str) (channelMessageId channelId : Int)
    (fileId caption : Str) (date : Nat) (db : DB) : DB :=
  { db with pending := db.pending ++
      [⟨code, channelMessageId, channelId, fileId, caption, date⟩] }

/-- `VideoDatabase.get_pending_movie_by_code`: `SELECT * FROM pending_movies
WHERE code = ?`, first row or `None`. -/
def get_pending_movie_by_code (code : Str) (db : DB) : Option PendingRow :=
  db.pending.find? (fun p => p.code = code)

/-- `VideoDatabase.remove_pending_movie`: `DELETE FROM pending_movies WHERE
code = ?` (all rows of that code). -/
def remove_pending_movie (code : Str) (db : DB) : DB :=
  { db with pending := db.pending.filter (fun p => p.code ≠ code) }

/-- `ORDER BY code ASC` on the TEXT column `code`: lexicographic by
code point (= byte order for UTF-8 text). -/
def lexLe : Str → Str → Bool
  | [], _ => true
  | _ :: _, [] => false
  | a :: as, b :: bs => if a = b then lexLe as bs else decide (a < b)

def codeLe (a b : MovieRow) : Prop := lexLe a.code b.code = true

instance : DecidableRel codeLe := fun _ _ => instDecidableEqBool _ _

/-- `VideoDatabase.get_movies_by_category`: `(rows, totalCount)` — the count
of the category's rows, and the page `LIMIT per_page OFFSET
(page-1)*per_page` of them ordered by code ascending. -/
def get_movies_by_category (category : Str) (page perPage : Nat) (db : DB) :
    List MovieRow × Nat :=
  let rows := db.movies.filter (fun m => m.category = category)
  (((rows.insertionSort codeLe).drop ((page - 1) * perPage)).take perPage,
    rows.length)

/-! ## The resolver (`handlers.py`, `_search_and_send_results` and the two
validators) -/

/-- What a search sends: a curated catalog entry (`result['type'] =
'movie'`) or a raw channel video (`result['type'] = 'video'`). -/
inductive SearchResult where
  | movie (m : MovieRow)
  | video (v : VideoRow)
deriving DecidableEq

/-- `BotHandlers._validate_movie_code`: re-read the code and structurally
compare title, category and code against the first fetch. -/
def validate_movie_code (movie : MovieRow) (code : Str) (db : DB) : Bool :=
  match get_movie_by_code code db with
  | none => false
  | some cur =>
    cur.title = movie.title ∧ cur.category = movie.category ∧ cur.code = movie.code

/-- `BotHandlers._validate_channel_code`: re-run the hashtag search and
accept when some current row carries the same `(chat_id, message_id)`. -/
def validate_channel_code (r : VideoRow) (code : Str) (db : DB) : Bool :=
  let cur := search_channel_by_hashtag ('#' :: code) db
  if cur.isEmpty then false
  else cur.any (fun c => c.chatId = r.chatId ∧ c.messageId = r.messageId)

/-- The raw-channel phase of the exact search (`handlers.py` 141–154): walk
the hashtag-search rows in order and take the first whose `codes` is truthy,
contains `#code` as a substring, and passes `_validate_channel_code`;
a row failing validation is skipped, not a stopper. -/
def rawScan (code : Str) (db : DB) : Option VideoRow :=
  (search_channel_by_hashtag ('#' :: code) db).find?
    (fun r => !r.codes.isEmpty && containsSub ('#' :: code) r.codes
      && validate_channel_code r code db)

/-- The exact phase of `_search_and_send_results` (lines 126–159): the
catalog first; the raw channel scan only when that produced no result. -/
def searchExact (code : Str) (db : DB) : Option SearchResult :=
  match get_movie_by_code code db with
  | some m =>
    if validate_movie_code m code db then some (SearchResult.movie m)
    else (rawScan code db).map SearchResult.video
  | none => (rawScan code db).map SearchResult.video

/-- The fixed single-letter fallback alphabet, in its tried order. -/
def fallbackLetters : List Char := ['M', 'A', 'C', 'D', 'H', 'S', 'F', 'T']

/-- Guard of the prefix-guess fallback (line 165): `code.isdigit() and
len(code) <= 3 and not code.startswith('0')`. -/
def fallbackGuard (code : Str) : Bool :=
  pyIsDigit code && code.length ≤ 3 && !(code.take 1 = ['0'])

/-- The fallback's catalog pass (lines 166–174): the first letter whose
prefixed code has a catalog row (no validation here). -/
def fallbackCatalog (code : Str) (db : DB) : Option SearchResult :=
  fallbackLetters.findSome?
    (fun p => (get_movie_by_code (p :: code) db).map SearchResult.movie)

/-- One letter of the fallback's raw pass (lines 180–185): the first
hashtag-search row whose `codes` is truthy and contains `#full_code` as a
substring — no channel validation in this pass. -/
def fallbackRawOne (fullCode : Str) (db : DB) : Option VideoRow :=
  (search_channel_by_hashtag ('#' :: fullCode) db).find?
    (fun r => !r.codes.isEmpty && containsSub ('#' :: fullCode) r.codes)

/-- The fallback's raw pass (lines 177–187): first letter with a raw hit;
entered only when the catalog pass found nothing. -/
def fallbackRaw (code : Str) (db : DB) : Option SearchResult :=
  fallbackLetters.findSome?
    (fun p => (fallbackRawOne (p :: code) db).map SearchResult.video)

/-- `BotHandlers._search_and_send_results`, as the result it sends
(`none` = "Film topilmadi"). -/
def searchAndSend (code : Str) (db : DB) : Option SearchResult :=
  match searchExact code db with
  | some r => some r
  | none =>
    if fallbackGuard code then
      match fallbackCatalog code db with
      | some r => some r
      | none => fallbackRaw code db
    else none

/-! ## The indexer (`handlers.py`, `channel_post_handler`) -/

/-- `BotHandlers.channel_post_handler` for a post that does carry a video:
save the raw row, then (when the caption has hashtags) add one pending row
per extracted code, the `#` markers stripped (`code.replace('#', '')`).
The printed existing-catalog-entry warning changes no state. -/
def channel_post_handler (chatId messageId : Int) (fileId caption : Str)
    (date : Nat) (db : DB) : DB :=
  let db1 := save_video chatId messageId fileId caption date db
  let codes := extract_hashtags_as_codes caption
  if codes.isEmpty then db1
  else
    (splitWs codes).foldl
      (fun d code =>
        add_pending_movie (code.filter (· ≠ '#')) messageId chatId fileId caption
          date d)
      db1

/-! ## Per-user session state and the message dispatcher
(`handlers.py`, `handle_message`) -/

/-- The curation step stored in `pending_movies[user_id]['step']`. -/
inductive Step where
  | title
  | category
  | newCategory
deriving DecidableEq

/-- One user's entry of `BotHandlers.pending_movies` (always created with
`'pending_movie': True` by `handle_callback_query`, so that key is not
modelled). -/
structure Session where
  code : Str
  channelMessageId : Int
  channelId : Int
  fileId : Str
  title : Option Str
  step : Step
deriving DecidableEq

/-- One user's entry of `BotHandlers.user_states` (browse cursor). -/
structure NavState where
  genre : Str
  page : Nat
deriving DecidableEq

/-- The store plus one user's two session maps. -/
structure BotState where
  db : DB
  session : Option Session
  nav : Option NavState
deriving DecidableEq

/-- The observable reply a text message produces (message sends and
keyboard renders collapsed to their kind). -/
inductive Reply where
  | searchReply (r : Option SearchResult)
  | categoriesShown
  | promptSearch
  | helpShown
  | aboutShown
  | startShown
  | commitDone
  | commitWriteFailed
  | draftMissing
  | newCategoryPrompt
  | pageShown (genre : Str) (page : Nat)
  | alreadyFirstPage
  | alreadyLastPage
  | noNavState
  | noGenre
  | invalidTitle
  | titleSaved
  | useButtons
  | invalidCategory
  | genericHelp
  | errorReply
deriving DecidableEq

/-- The reserved-keyboard button texts compared against verbatim. -/
def btnCategories : Str := ("📁 Kategoriya bo'yicha ko'rish").toList
def btnSearchMenu : Str := ("🔍 Kod bo'yicha qidirish").toList
def btnHelp : Str := ("📚 Yordam").toList
def btnInfo : Str := ("ℹ️ Ma'lumot").toList
def btnMainMenu : Str := ("🏠 Asosiy menyu").toList
def btnNewCategory : Str := ("➕ Yangi kategoriya qo'shish").toList
def btnBackToGenres : Str := ("⬅️ Janrlarga qaytish").toList
def btnPrev : Str := ("⬅️ Oldingi sahifa").toList
def btnNext : Str := ("➡️ Keyingi sahifa").toList

/-- The `"📁 "` marker of genre buttons. -/
def folderMark : Str := ("📁 ").toList

/-- The `"🎬 "` marker of movie buttons. -/
def movieMark : Str := ("🎬 ").toList

/-- The tuple of `text.startswith(("📁", "🔍", "📚", "ℹ️", "🏠", "⬅️",
"🎬"))` in the direct-code-search guard. -/
def reservedMarks : List Str :=
  [("📁").toList, ("🔍").toList, ("📚").toList, ("ℹ️").toList,
    ("🏠").toList, ("⬅️").toList, ("🎬").toList]

def startsWithAnyMark (t : Str) : Bool := reservedMarks.any (fun m => m.isPrefixOf t)

/-- The direct-code-search guard (line 526): `len(text) <= 10 and
text.isdigit() and not text.startswith((…))`. -/
def searchGuard (t : Str) : Bool :=
  t.length ≤ 10 && pyIsDigit t && !startsWithAnyMark t

/-- The shared tail of the two commit paths (lines 553–596 and 751–795):
re-read the pending draft by the session's code; when it is gone reply
"topilmadi" and change nothing; otherwise `add_movie` (success = `writeOk`),
and only on success `remove_pending_movie` and clear the session.  On a
failed write nothing changes and the user is told to retry. -/
def commitStep (writeOk : Bool) (category : Str) (sess : Session)
    (st : BotState) : BotState × Reply :=
  match sess.title with
  | none => (st, Reply.errorReply)
  | some title =>
    match get_pending_movie_by_code sess.code st.db with
    | none => (st, Reply.draftMissing)
    | some pm =>
      if writeOk then
        ({ st with
            db := remove_pending_movie sess.code
              (add_movie sess.code title category pm.channelMessageId
                pm.channelId pm.fileId st.db),
            session := none },
          Reply.commitDone)
      else (st, Reply.commitWriteFailed)

/-- Lines 702–807: the step-by-step handling a text falls through to when no
dispatch branch returned. -/
def stepHandler (writeOk : Bool) (t : Str) (st : BotState) : BotState × Reply :=
  match st.session with
  | none => (st, Reply.genericHelp)
  | some sess =>
    match sess.step with
    | Step.title =>
      if t.isEmpty then (st, Reply.invalidTitle)
      else
        ({ st with session := some { sess with title := some t, step := Step.category } },
          Reply.titleSaved)
    | Step.category => (st, Reply.useButtons)
    | Step.newCategory =>
      if t.isEmpty then (st, Reply.invalidCategory)
      else commitStep writeOk t sess st

/-- Lines 649–668: the previous-page button. -/
def prevPage (st : BotState) : BotState × Reply :=
  match st.nav with
  | none => (st, Reply.noNavState)
  | some nv =>
    if 1 < nv.page then
      ({ st with nav := some { nv with page := nv.page - 1 } },
        Reply.pageShown nv.genre (nv.page - 1))
    else (st, Reply.alreadyFirstPage)

/-- Lines 670–700: the next-page button.  `total_pages = (total_count + 8 -
1) // 8` with the hard-coded page size 8. -/
def nextPage (st : BotState) : BotState × Reply :=
  match st.nav with
  | none => (st, Reply.noNavState)
  | some nv =>
    if nv.genre.isEmpty then (st, Reply.noGenre)
    else
      if nv.page < ((get_movies_by_category nv.genre 1 8 st.db).2 + 8 - 1) / 8 then
        ({ st with nav := some { nv with page := nv.page + 1 } },
          Reply.pageShown nv.genre (nv.page + 1))
      else (st, Reply.alreadyLastPage)

/-- The code a movie button carries:
`text.split("(")[-1].split(")")[0]`. -/
def parenCode (t : Str) : Str := (afterLastChar '(' t).takeWhile (· ≠ ')')

/-- `BotHandlers.handle_message` for a text message, after
`text = update.message.text.strip()`: the `if/elif` dispatch of lines
522–700, falling through to `stepHandler` exactly where the Python falls
through to line 702. -/
def handleMessageText (writeOk : Bool) (text : Str) (st : BotState) :
    BotState × Reply :=
  let t := stripWs text
  if searchGuard t then (st, Reply.searchReply (searchAndSend t st.db))
  else if t = btnCategories then (st, Reply.categoriesShown)
  else if t = btnSearchMenu then (st, Reply.promptSearch)
  else if t = btnHelp then (st, Reply.helpShown)
  else if t = btnInfo then (st, Reply.aboutShown)
  else if t = btnMainMenu then (st, Reply.startShown)
  else if folderMark.isPrefixOf t && st.session.isSome then
    match st.session with
    | some sess =>
      if sess.step = Step.category then
        commitStep writeOk (removeAll folderMark t) sess st
      else stepHandler writeOk t st
    | none => stepHandler writeOk t st
  else if t = btnNewCategory && st.session.isSome then
    match st.session with
    | some sess =>
      if sess.step = Step.category then
        ({ st with session := some { sess with step := Step.newCategory } },
          Reply.newCategoryPrompt)
      else stepHandler writeOk t st
    | none => stepHandler writeOk t st
  else if t = btnBackToGenres then ({ st with nav := none }, Reply.categoriesShown)
  else if folderMark.isPrefixOf t then
    let genre := takeBeforeSub ((" (").toList) (removeAll folderMark t)
    ({ st with nav := some ⟨genre, 1⟩ }, Reply.pageShown genre 1)
  else if movieMark.isPrefixOf t then
    if '(' ∈ t ∧ ')' ∈ t then
      (st, Reply.searchReply (searchAndSend (parenCode t) st.db))
    else stepHandler writeOk t st
  else if t = btnPrev then prevPage st
  else if t = btnNext then nextPage st
  else stepHandler writeOk t st

/-! ## Supporting lemmas -/

theorem find?_congr_mem {α : Type} (l : List α) (p q : α → Bool)
    (h : ∀ x ∈ l, p x = q x) : l.find? p = l.find? q := by
  induction l with
  | nil => rfl
  | cons a t ih =>
    have ha := h a (List.mem_cons_self a t)
    by_cases hp : p a = true
    · rw [List.find?_cons_of_pos _ hp, List.find?_cons_of_pos _ (ha ▸ hp)]
    · rw [List.find?_cons_of_neg _ hp,
        List.find?_cons_of_neg _ (by rw [← ha]; exact hp),
        ih (fun x hx => h x (List.mem_cons_of_mem a hx))]

/-- A row returned by the hashtag search survives
`_validate_channel_code` against the same (unchanged) store: the re-run
search returns the row itself, whose identity matches. -/
theorem validate_channel_code_of_mem (code : Str) (db : DB) (r : VideoRow)
    (hr : r ∈ search_channel_by_hashtag ('#' :: code) db) :
    validate_channel_code r code db = true := by
  unfold validate_channel_code
  have hne : (search_channel_by_hashtag ('#' :: code) db).isEmpty = false := by
    cases hl : search_channel_by_hashtag ('#' :: code) db with
    | nil => rw [hl] at hr; exact absurd hr (List.not_mem_nil r)
    | cons a t => rfl
  simp only [hne, Bool.false_eq_true, if_false]
  exact List.any_eq_true.mpr ⟨r, hr, by simp⟩

/-- A catalog row just fetched survives `_validate_movie_code` against the
same (unchanged) store: the re-read returns the identical row. -/
theorem validate_movie_code_of_get (code : Str) (db : DB) (m : MovieRow)
    (hm : get_movie_by_code code db = some m) :
    validate_movie_code m code db = true := by
  unfold validate_movie_code
  rw [hm]
  simp

/-- The hashtag search lists rows newest first. -/
theorem search_channel_sorted (hashtag : Str) (db : DB) :
    List.Sorted newestFirst (search_channel_by_hashtag hashtag db) :=
  List.Pairwise.sublist (List.filter_sublist _)
    (List.sorted_insertionSort newestFirst db.videos)

/-- `findSome?` returns the image of the first element with a hit: the
"stops at the first prefix that yields a result" principle. -/
theorem findSome?_of_first {α β : Type} (l : List α) (f : α → Option β)
    (x : α) (b : β) (l₁ l₂ : List α) (hsplit : l = l₁ ++ x :: l₂)
    (hmiss : ∀ y ∈ l₁, f y = none) (hhit : f x = some b) :
    l.findSome? f = some b := by
  subst hsplit
  induction l₁ with
  | nil => simp [List.findSome?_cons, hhit]
  | cons a t ih =>
    have ha := hmiss a (List.mem_cons_self a t)
    simp only [List.cons_append, List.findSome?_cons, ha]
    exact ih (fun y hy => hmiss y (List.mem_cons_of_mem a hy))

/-- A non-empty all-digit text starts with none of the reserved emoji
markers (they all open with a non-digit character). -/
theorem startsWithAnyMark_of_digits (t : Str) (h : pyIsDigit t = true) :
    startsWithAnyMark t = false := by
  cases t with
  | nil => simp [pyIsDigit] at h
  | cons c rest =>
    have hc : c.isDigit = true := by
      simp only [pyIsDigit, Bool.and_eq_true, List.all_cons] at h
      exact h.2.1
    have key : ∀ (m0 : Char) (mr : Str), m0.isDigit = false →
        (m0 :: mr).isPrefixOf (c :: rest) = false := by
      intro m0 mr h0
      simp only [List.isPrefixOf, Bool.and_eq_false_iff]
      left
      simp only [beq_eq_false_iff_ne, ne_eq]
      intro he
      rw [he, hc] at h0
      exact Bool.true_eq_false ▸ h0
    simp only [startsWithAnyMark, reservedMarks, List.any_cons, List.any_nil,
      Bool.or_eq_false_iff]
    exact ⟨key _ _ (by decide), key _ _ (by decide), key _ _ (by decide),
      key _ _ (by decide), key _ _ (by decide), key _ _ (by decide),
      key _ _ (by decide), trivial⟩

theorem takeWhile_of_headWord_false (s : Str) (h : headWord s = false) :
    s.takeWhile isWordChar = [] ∧ s.dropWhile isWordChar = s := by
  cases s with
  | nil => exact ⟨rfl, rfl⟩
  | cons c r =>
    simp only [headWord] at h
    simp [List.takeWhile_cons, List.dropWhile_cons, h]

/-- Closing the in-token state: the scanner emits the pending token extended
by the maximal word-character run, then rescans the remainder from the
outside state. -/
theorem scanAux_some (s : Str) : ∀ cur : Str,
    scanAux (some cur) s =
      (if (cur.reverse ++ s.takeWhile isWordChar).isEmpty then []
        else ['#' :: (cur.reverse ++ s.takeWhile isWordChar)]) ++
        scanAux none (s.dropWhile isWordChar) := by
  induction s with
  | nil =>
    intro cur
    simp [scanAux, List.isEmpty_iff]
  | cons c rest ih =>
    intro cur
    by_cases hw : isWordChar c = true
    · rw [show scanAux (some cur) (c :: rest) = scanAux (some (c :: cur)) rest by
        simp [scanAux, hw]]
      rw [ih (c :: cur)]
      simp [List.takeWhile_cons, List.dropWhile_cons, hw, List.append_assoc]
    · have hw' : isWordChar c = false := Bool.eq_false_iff.mpr hw
      rw [show scanAux (some cur) (c :: rest) =
          (if cur.isEmpty then [] else ['#' :: cur.reverse]) ++
            (if c = '#' then scanAux (some []) rest else scanAux none rest) by
        simp [scanAux, hw']]
      simp only [List.takeWhile_cons, List.dropWhile_cons, hw', Bool.false_eq_true,
        if_false, List.append_nil]
      rw [show scanAux none (c :: rest) =
          (if c = '#' then scanAux (some []) rest else scanAux none rest) by
        simp [scanAux]]
      simp [List.isEmpty_iff]

/-- The one-pass scanner computes the leftmost-maximal-match list. -/
theorem scanHashtags_eq_scanSpec : ∀ s : Str, scanHashtags s = scanSpec s
  | [] => by simp [scanHashtags, scanAux, scanSpec]
  | c :: rest => by
    rw [scanSpec]
    by_cases hc : c = '#' ∧ headWord rest = true
    · obtain ⟨hc1, hc2⟩ := hc
      rw [if_pos ⟨hc1, hc2⟩]
      rw [show scanHashtags (c :: rest) = scanAux (some []) rest by
        simp [scanHashtags, scanAux, hc1]]
      rw [scanAux_some]
      have htw : rest.takeWhile isWordChar ≠ [] := by
        cases rest with
        | nil => simp [headWord] at hc2
        | cons r rr =>
          simp only [headWord] at hc2
          simp [List.takeWhile_cons, hc2]
      have : ((([] : Str).reverse ++ rest.takeWhile isWordChar).isEmpty) = false := by
        simp [List.isEmpty_iff, htw]
      rw [this]
      simp only [List.reverse_nil, List.nil_append, Bool.false_eq_true, if_false,
        List.singleton_append, List.cons.injEq]
      exact ⟨trivial, scanHashtags_eq_scanSpec (rest.dropWhile isWordChar)⟩
    · rw [if_neg hc]
      by_cases h1 : c = '#'
      · have h2 : headWord rest = false := by
          rcases Bool.eq_false_or_eq_true (headWord rest) with h | h
          · exact absurd ⟨h1, h⟩ hc
          · exact h
        rw [show scanHashtags (c :: rest) = scanAux (some []) rest by
          simp [scanHashtags, scanAux, h1]]
        rw [scanAux_some]
        obtain ⟨ht, hd⟩ := takeWhile_of_headWord_false rest h2
        rw [ht, hd]
        simpa using scanHashtags_eq_scanSpec rest
      · rw [show scanHashtags (c :: rest) = scanAux none rest by
          simp [scanHashtags, scanAux, h1]]
        exact scanHashtags_eq_scanSpec rest
termination_by s => s.length
decreasing_by
  · simp only [List.length_cons]
    exact Nat.lt_succ_of_le (List.dropWhile_sublist _).length_le
  · simp
  · simp

/-- Every match is `#` followed by a non-empty run of word characters. -/
theorem scanSpec_token_shape : ∀ s : Str, ∀ t ∈ scanSpec s,
    ∃ w : Str, t = '#' :: w ∧ w ≠ [] ∧ w.all isWordChar = true
  | [] => by intro t ht; simp [scanSpec] at ht
  | c :: rest => by
    intro t ht
    rw [scanSpec] at ht
    by_cases hc : c = '#' ∧ headWord rest = true
    · rw [if_pos hc] at ht
      rcases List.mem_cons.mp ht with h | h
      · refine ⟨rest.takeWhile isWordChar, h, ?_, ?_⟩
        · cases rest with
          | nil => simp [headWord] at hc
          | cons r rr =>
            have := hc.2
            simp only [headWord] at this
            simp [List.takeWhile_cons, this]
        · exact List.all_eq_true.mpr (fun x hx => List.mem_takeWhile_imp hx)
      · exact scanSpec_token_shape (rest.dropWhile isWordChar) t h
    · rw [if_neg hc] at ht
      exact scanSpec_token_shape rest t ht
termination_by s => s.length
decreasing_by
  · simp only [List.length_cons]
    exact Nat.lt_succ_of_le (List.dropWhile_sublist _).length_le
  · simp

theorem get_pending_after_remove (code : Str) (db : DB) :
    get_pending_movie_by_code code (remove_pending_movie code db) = none := by
  apply List.find?_eq_none.mpr
  intro p hp
  have := List.of_mem_filter hp
  simp only [ne_eq, decide_not, Bool.not_eq_eq_eq_not, Bool.not_true,
    decide_eq_false_iff_not] at this
  simp [this]

theorem get_movie_after_add (code title category : Str) (cm ci : Int)
    (fid : Str) (db : DB) :
    get_movie_by_code code (add_movie code title category cm ci fid db) =
      some ⟨code, title, category, cm, ci, fid⟩ := by
  unfold get_movie_by_code add_movie
  rw [List.find?_append]
  have h1 : (db.movies.filter (fun m => m.code ≠ code)).find?
      (fun m => decide (m.code = code)) = none := by
    apply List.find?_eq_none.mpr
    intro m hm
    have := List.of_mem_filter hm
    simp only [ne_eq, decide_not, Bool.not_eq_eq_eq_not, Bool.not_true,
      decide_eq_false_iff_not] at this
    simp [this]
  rw [h1]
  simp [List.find?]

/-! ## The claims -/

/-- Claim C1: the promotion commit step first re-reads the PendingDraft by
code; absent → `draftMissing` with no state change (in particular no catalog
write); present and the catalog write succeeds → the CatalogEntry is
written, the PendingDraft deleted and the session cleared; the write fails →
store and session are both left unchanged. -/
theorem promotion_commit_guarded (writeOk : Bool) (cat ttl : Str)
    (sess : Session) (st : BotState) (hT : sess.title = some ttl) :
    (get_pending_movie_by_code sess.code st.db = none →
      commitStep writeOk cat sess st = (st, Reply.draftMissing)) ∧
    (∀ pm, get_pending_movie_by_code sess.code st.db = some pm →
      (writeOk = false → commitStep writeOk cat sess st = (st, Reply.commitWriteFailed)) ∧
      (writeOk = true →
        commitStep writeOk cat sess st =
          ({ st with
              db := remove_pending_movie sess.code
                (add_movie sess.code ttl cat pm.channelMessageId pm.channelId
                  pm.fileId st.db),
              session := none }, Reply.commitDone) ∧
        get_pending_movie_by_code sess.code (commitStep writeOk cat sess st).1.db = none ∧
        get_movie_by_code sess.code (commitStep writeOk cat sess st).1.db =
          some ⟨sess.code, ttl, cat, pm.channelMessageId, pm.channelId, pm.fileId⟩ ∧
        (commitStep writeOk cat sess st).1.session = none)) := by
  constructor
  · intro hnone
    unfold commitStep
    rw [hT, hnone]
  · intro pm hpm
    constructor
    · intro hw
      unfold commitStep
      rw [hT, hpm, hw]
      simp
    · intro hw
      have hstep : commitStep writeOk cat sess st =
          ({ st with
              db := remove_pending_movie sess.code
                (add_movie sess.code ttl cat pm.channelMessageId pm.channelId
                  pm.fileId st.db),
              session := none }, Reply.commitDone) := by
        unfold commitStep
        rw [hT, hpm, hw]
        simp
      refine ⟨hstep, ?_, ?_, ?_⟩
      · rw [hstep]
        exact get_pending_after_remove sess.code _
      · rw [hstep]
        have : get_movie_by_code sess.code
            (remove_pending_movie sess.code
              (add_movie sess.code ttl cat pm.channelMessageId pm.channelId
                pm.fileId st.db)) =
            get_movie_by_code sess.code
              (add_movie sess.code ttl cat pm.channelMessageId pm.channelId
                pm.fileId st.db) := rfl
        rw [this, get_movie_after_add]
      · rw [hstep]

def sessW : Session :=
  ⟨("A1").toList, 2, 1, ("f").toList, some (("T").toList), Step.category⟩

def stW : BotState :=
  ⟨⟨[], [], [⟨("A1").toList, 2, 1, ("f").toList, ("#A1").toList, 0⟩]⟩,
    some sessW, none⟩

theorem promotion_commit_guarded_witness :
    commitStep true (("Drama").toList) sessW stW =
      ({ stW with
          db := remove_pending_movie (("A1").toList)
            (add_movie (("A1").toList) (("T").toList) (("Drama").toList) 2 1
              (("f").toList) stW.db),
          session := none }, Reply.commitDone) ∧
    get_pending_movie_by_code (("A1").toList)
      (commitStep true (("Drama").toList) sessW stW).1.db = none ∧
    get_movie_by_code (("A1").toList)
      (commitStep true (("Drama").toList) sessW stW).1.db =
      some ⟨("A1").toList, ("T").toList, ("Drama").toList, 2, 1, ("f").toList⟩ ∧
    (commitStep true (("Drama").toList) sessW stW).1.session = none :=
  ((promotion_commit_guarded true (("Drama").toList) (("T").toList) sessW stW
      rfl).2
    ⟨("A1").toList, 2, 1, ("f").toList, ("#A1").toList, 0⟩ (by decide)).2 rfl

/-- Claim C2 (the code, evaluated at the failing input): ingesting the same
source identity `(chat_id, message_id) = (1, 2)` twice with captions `#A`
then `#B` leaves TWO `videos` rows for that identity — the first caption's
codes included — because the table has no UNIQUE constraint on the identity,
so `INSERT OR REPLACE` never replaces.  The claim (one row, latest codes)
fails on this input. -/
theorem ingest_same_identity_twice_keeps_two_rows :
    ((channel_post_handler 1 2 (("f").toList) (("#B").toList) 1
        (channel_post_handler 1 2 (("f").toList) (("#A").toList) 0
          emptyDB)).videos.filter
      (fun v => v.chatId = 1 ∧ v.messageId = 2)).length = 2 ∧
    ((channel_post_handler 1 2 (("f").toList) (("#B").toList) 1
        (channel_post_handler 1 2 (("f").toList) (("#A").toList) 0
          emptyDB)).videos.map (fun v => v.codes)) =
      [("#A").toList, ("#B").toList] := by
  constructor
  · decide
  · decide

/-- Claim C3 (the code, evaluated at the failing input): ingesting the code
`A1` twice leaves TWO `pending_movies` rows for `A1` — `pending_movies.code`
has no UNIQUE constraint, so `INSERT OR REPLACE` appends instead of
overwriting, although the handler itself prints "New video will overwrite
pending movie for this code". -/
theorem ingest_same_code_twice_keeps_two_drafts :
    ((channel_post_handler 1 3 (("g").toList) (("#A1").toList) 1
        (channel_post_handler 1 2 (("f").toList) (("#A1").toList) 0
          emptyDB)).pending.filter
      (fun p => p.code = ("A1").toList)).length = 2 := by decide

/-- Claim C9 (amended): for every caption, `extract_hashtags_as_codes`
returns the maximal `#token` substrings — `#` followed by a maximal
non-empty run of word characters, collected left to right — in order of
occurrence, joined by single spaces, with duplicates retained: the result
is an ordered list, not a deduplicated set. -/
theorem extract_codes_maximal_tokens (caption : Str) :
    extract_hashtags_as_codes caption = joinSpaces (scanSpec caption) ∧
    ∀ t ∈ scanSpec caption,
      ∃ w : Str, t = '#' :: w ∧ w ≠ [] ∧ w.all isWordChar = true :=
  ⟨by rw [extract_hashtags_as_codes, scanHashtags_eq_scanSpec],
    scanSpec_token_shape caption⟩

theorem extract_codes_maximal_tokens_witness :
    extract_hashtags_as_codes (("hi #A1 x#A1!").toList) =
      joinSpaces (scanSpec (("hi #A1 x#A1!").toList)) ∧
    ∃ w : Str, (("#A1").toList) = '#' :: w ∧ w ≠ [] ∧ w.all isWordChar = true :=
  ⟨(extract_codes_maximal_tokens (("hi #A1 x#A1!").toList)).1,
    (extract_codes_maximal_tokens (("hi #A1 x#A1!").toList)).2 (("#A1").toList)
      (by rw [← scanHashtags_eq_scanSpec]; decide)⟩

/-- Claim C9 (counterexample): the caption `#A #A` yields the match list
`[#A, #A]` and the stored string `#A #A` — byte-identical duplicates are
NOT collapsed, so the result is not a set. -/
theorem extract_codes_duplicates_refuted :
    scanHashtags (("#A #A").toList) = [("#A").toList, ("#A").toList] ∧
    extract_hashtags_as_codes (("#A #A").toList) = ("#A #A").toList ∧
    ¬ (scanHashtags (("#A #A").toList)).Nodup := by
  refine ⟨by decide, by decide, by decide⟩

/-- Claim C10: a free-text message whose stripped text is purely numeric and
at most 10 characters long is always dispatched to the code search, for
every user state: the resolver runs on the stripped text and the whole
state — the curation session with its step and collected title included —
is returned unchanged. -/
theorem numeric_text_is_always_search (writeOk : Bool) (text : Str)
    (st : BotState) (hD : pyIsDigit (stripWs text) = true)
    (hL : (stripWs text).length ≤ 10) :
    handleMessageText writeOk text st =
      (st, Reply.searchReply (searchAndSend (stripWs text) st.db)) := by
  unfold handleMessageText
  have hg : searchGuard (stripWs text) = true := by
    simp [searchGuard, hD, hL, startsWithAnyMark_of_digits _ hD]
  simp only [hg, if_true]

theorem numeric_text_is_always_search_witness :
    handleMessageText true (("42").toList) ⟨emptyDB, some sessW, none⟩ =
      (⟨emptyDB, some sessW, none⟩,
        Reply.searchReply (searchAndSend (("42").toList) emptyDB)) :=
  numeric_text_is_always_search true (("42").toList) ⟨emptyDB, some sessW, none⟩
    (by decide) (by decide)

/-- Claim C4: the prefix-guess fallback is reached only when the exact
phase (catalog, then raw) yielded nothing AND the input code is purely
numeric, of length 1–3, not starting with `0` (the guard is exactly that
predicate); in particular `resolve("007")` never triggers the fallback even
with no exact match; and `resolve("7")` tries the prefixed codes
M7, A7, C7, D7, H7, S7, F7, T7 in that order — the catalog lookups first,
then the raw lookups, each pass returning its first hit. -/
theorem prefix_fallback_guard_and_order :
    (∀ code db r, searchExact code db = some r → searchAndSend code db = some r) ∧
    (∀ code db, searchExact code db = none → fallbackGuard code = false →
      searchAndSend code db = none) ∧
    (∀ code, fallbackGuard code = true ↔
      (code.all Char.isDigit = true ∧ 1 ≤ code.length ∧ code.length ≤ 3 ∧
        code.take 1 ≠ ['0'])) ∧
    (∀ db, searchExact (("007").toList) db = none →
      searchAndSend (("007").toList) db = none) ∧
    (∀ db, searchExact (("7").toList) db = none →
      searchAndSend (("7").toList) db =
        (([("M7").toList, ("A7").toList, ("C7").toList, ("D7").toList,
            ("H7").toList, ("S7").toList, ("F7").toList,
            ("T7").toList]).findSome?
            (fun fc => (get_movie_by_code fc db).map SearchResult.movie) <|>
          ([("M7").toList, ("A7").toList, ("C7").toList, ("D7").toList,
            ("H7").toList, ("S7").toList, ("F7").toList,
            ("T7").toList]).findSome?
            (fun fc => (fallbackRawOne fc db).map SearchResult.video))) := by
  have base : ∀ code db, searchExact code db = none → fallbackGuard code = true →
      searchAndSend code db = (fallbackCatalog code db <|> fallbackRaw code db) := by
    intro code db hnone hg
    simp only [searchAndSend, hnone, hg, if_true]
    cases hc : fallbackCatalog code db with
    | some r => simp [hc, Option.orElse]
    | none => simp [hc, Option.orElse]
  refine ⟨?_, ?_, ?_, ?_, ?_⟩
  · intro code db r h
    simp [searchAndSend, h]
  · intro code db hnone hg
    simp [searchAndSend, hnone, hg]
  · intro code
    unfold fallbackGuard pyIsDigit
    cases code with
    | nil => simp
    | cons c t =>
      simp only [Bool.and_eq_true, Bool.not_eq_true', decide_eq_false_iff_not,
        List.isEmpty_cons, Bool.not_false, true_and, decide_eq_true_eq]
      constructor
      · rintro ⟨⟨hd, hl⟩, h0⟩
        exact ⟨hd, by simp, hl, h0⟩
      · rintro ⟨hd, _, hl, h0⟩
        exact ⟨⟨hd, hl⟩, h0⟩
  · intro db hnone
    have hnone' : searchExact (['0', '0', '7'] : Str) db = none := hnone
    simp [searchAndSend, hnone',
      show fallbackGuard (['0', '0', '7'] : Str) = false from by decide]
  · intro db hnone
    rw [base _ db hnone (by decide)]
    have hA : fallbackCatalog (("7").toList) db =
        ([("M7").toList, ("A7").toList, ("C7").toList, ("D7").toList,
          ("H7").toList, ("S7").toList, ("F7").toList,
          ("T7").toList]).findSome?
          (fun fc => (get_movie_by_code fc db).map SearchResult.movie) := rfl
    have hB : fallbackRaw (("7").toList) db =
        ([("M7").toList, ("A7").toList, ("C7").toList, ("D7").toList,
          ("H7").toList, ("S7").toList, ("F7").toList,
          ("T7").toList]).findSome?
          (fun fc => (fallbackRawOne fc db).map SearchResult.video) := rfl
    rw [hA, hB]

theorem prefix_fallback_guard_and_order_witness :
    searchAndSend (("007").toList) emptyDB = none :=
  prefix_fallback_guard_and_order.2.2.2.1 emptyDB (by decide)

/-- Claim C5 (amended): within the prefix-guess fallback the CATALOG pass
runs first, trying every prefix in the fixed order M, A, C, D, H, S, F, T
and stopping at the first prefix whose prefixed code has a catalog row; the
RAW pass runs only when the whole catalog pass yielded nothing, again in
that order, stopping at the first prefix whose prefixed code has a raw hit.
(The code does not interleave catalog and raw lookups per prefix.) -/
theorem prefix_fallback_two_pass (code : Str) (db : DB)
    (hnone : searchExact code db = none) (hg : fallbackGuard code = true) :
    searchAndSend code db = (fallbackCatalog code db <|> fallbackRaw code db) ∧
    (∀ (l₁ l₂ : List Char) (p : Char) (m : MovieRow),
      fallbackLetters = l₁ ++ p :: l₂ →
      (∀ q ∈ l₁, get_movie_by_code (q :: code) db = none) →
      get_movie_by_code (p :: code) db = some m →
      searchAndSend code db = some (SearchResult.movie m)) ∧
    (fallbackCatalog code db = none →
      ∀ (l₁ l₂ : List Char) (p : Char) (v : VideoRow),
        fallbackLetters = l₁ ++ p :: l₂ →
        (∀ q ∈ l₁, fallbackRawOne (q :: code) db = none) →
        fallbackRawOne (p :: code) db = some v →
        searchAndSend code db = some (SearchResult.video v)) := by
  have base : searchAndSend code db =
      (fallbackCatalog code db <|> fallbackRaw code db) := by
    simp only [searchAndSend, hnone, hg, if_true]
    cases hc : fallbackCatalog code db with
    | some r => simp [hc, Option.orElse]
    | none => simp [hc, Option.orElse]
  refine ⟨base, ?_, ?_⟩
  · intro l₁ l₂ p m hsplit hmiss hhit
    have hcat : fallbackCatalog code db = some (SearchResult.movie m) := by
      unfold fallbackCatalog
      exact findSome?_of_first fallbackLetters _ p (SearchResult.movie m) l₁ l₂
        hsplit (fun q hq => by rw [hmiss q hq]; rfl) (by rw [hhit]; rfl)
    rw [base, hcat]
    rfl
  · intro hcat l₁ l₂ p v hsplit hmiss hhit
    have hraw : fallbackRaw code db = some (SearchResult.video v) := by
      unfold fallbackRaw
      exact findSome?_of_first fallbackLetters _ p (SearchResult.video v) l₁ l₂
        hsplit (fun q hq => by rw [hmiss q hq]; rfl) (by rw [hhit]; rfl)
    rw [base, hcat, hraw]
    rfl

def a7W : MovieRow := ⟨("A7").toList, ("T").toList, ("C").toList, 1, 1, ("f").toList⟩
def m7W : VideoRow := ⟨5, 6, ("g").toList, ("#M7").toList, ("#M7").toList, 0⟩
def dbX : DB := ⟨[m7W], [a7W], []⟩

theorem prefix_fallback_two_pass_witness :
    searchAndSend (("7").toList) dbX = some (SearchResult.movie a7W) :=
  (prefix_fallback_two_pass (("7").toList) dbX (by decide) (by decide)).2.1
    ['M'] ['C', 'D', 'H', 'S', 'F', 'T'] 'A' a7W rfl (by decide) (by decide)

/-- Claim C5 (counterexample): with catalog = {A7} and one raw item tagged
`#M7`, the first prefix in M, A, C, D, H, S, F, T that yields any result
(catalog or raw) is M — its raw lookup hits — yet `resolve("7")` returns
the catalog entry under A7, not M's raw video: the claimed per-prefix
catalog-then-raw interleaving does not hold. -/
theorem prefix_fallback_interleave_refuted :
    searchAndSend (("7").toList) dbX = some (SearchResult.movie a7W) ∧
    get_movie_by_code (("M7").toList) dbX = none ∧
    fallbackRawOne (("M7").toList) dbX = some m7W ∧
    SearchResult.movie a7W ≠ SearchResult.video m7W := by decide

/-- Claim C6 (amended): the resolver consults the catalog first and returns
a validated catalog hit without touching raw items; raw items are scanned
only when the catalog lookup yields nothing, in date-descending
(newest-first) order; at most one raw result is returned — the first
scanned item whose stored codes string contains the marker-prefixed code as
a SUBSTRING (not necessarily as a member of its code set); the identity
re-validation against the same store always passes and drops no
candidate. -/
theorem raw_lookup_order_and_substring (code : Str) (db : DB) :
    (∀ m, get_movie_by_code code db = some m →
      searchExact code db = some (SearchResult.movie m)) ∧
    (get_movie_by_code code db = none →
      searchExact code db =
        ((search_channel_by_hashtag ('#' :: code) db).find?
          (fun r => !r.codes.isEmpty && containsSub ('#' :: code) r.codes)).map
          SearchResult.video) ∧
    List.Sorted newestFirst (search_channel_by_hashtag ('#' :: code) db) := by
  refine ⟨?_, ?_, search_channel_sorted _ db⟩
  · intro m hm
    simp [searchExact, hm, validate_movie_code_of_get code db m hm]
  · intro hnone
    simp only [searchExact, hnone]
    unfold rawScan
    rw [find?_congr_mem]
    intro r hr
    rw [validate_channel_code_of_mem code db r hr, Bool.and_true]

def vC6 : VideoRow := ⟨1, 2, ("f").toList, ("#A12").toList, ("#A12").toList, 0⟩
def dbC6 : DB := ⟨[vC6], [], []⟩

theorem raw_lookup_order_and_substring_witness :
    searchExact (("A1").toList) dbC6 =
      ((search_channel_by_hashtag (("#A1").toList) dbC6).find?
        (fun r => !r.codes.isEmpty &&
          containsSub (("#A1").toList) r.codes)).map SearchResult.video :=
  (raw_lookup_order_and_substring (("A1").toList) dbC6).2.1 (by decide)

/-- Claim C6 (counterexample): with one raw item whose code set is exactly
{`#A12`}, resolving `A1` returns that item although `#A1` is NOT a member
of the item's stored code set — the raw match is a substring test, not set
membership. -/
theorem raw_lookup_membership_refuted :
    searchExact (("A1").toList) dbC6 = some (SearchResult.video vC6) ∧
    (splitWs vC6.codes).contains (("#A1").toList) = false := by decide

/-- Claim C8: with a browse cursor `{category, page}`, pressing "next" while
`page = ⌈totalCount / 8⌉` (the hard-coded page size is 8) is rejected with
the already-last-page report and the state — cursor included — is returned
unchanged; pressing "previous" at `page = 1` is rejected with the
already-first-page report, again without mutating anything. -/
theorem pagination_rejects_out_of_range (writeOk : Bool) (st : BotState)
    (nv : NavState) (hN : st.nav = some nv) :
    (nv.genre ≠ [] →
      nv.page = ((get_movies_by_category nv.genre 1 8 st.db).2 + 8 - 1) / 8 →
      handleMessageText writeOk btnNext st = (st, Reply.alreadyLastPage)) ∧
    (nv.page = 1 →
      handleMessageText writeOk btnPrev st = (st, Reply.alreadyFirstPage)) := by
  constructor
  · intro hg hp
    rw [show handleMessageText writeOk btnNext st = nextPage st from rfl]
    unfold nextPage
    rw [hN]
    dsimp only
    rw [if_neg (by simp [List.isEmpty_iff, hg])]
    rw [if_neg (by rw [hp]; exact Nat.lt_irrefl _)]
  · intro hp
    rw [show handleMessageText writeOk btnPrev st = prevPage st from rfl]
    unfold prevPage
    rw [hN]
    dsimp only
    rw [if_neg (by rw [hp]; exact Nat.lt_irrefl 1)]

def dbC8 : DB :=
  ⟨[], [⟨("A1").toList, ("T").toList, ("G").toList, 1, 1, ("f").toList⟩], []⟩

def navC8 : NavState := ⟨("G").toList, 1⟩

def stC8 : BotState := ⟨dbC8, none, some navC8⟩

theorem pagination_rejects_out_of_range_witness :
    handleMessageText true btnNext stC8 = (stC8, Reply.alreadyLastPage) ∧
    handleMessageText true btnPrev stC8 = (stC8, Reply.alreadyFirstPage) :=
  ⟨(pagination_rejects_out_of_range true stC8 navC8 rfl).1 (by decide) (by decide),
    (pagination_rejects_out_of_range true stC8 navC8 rfl).2 rfl⟩

/-- Claim C7 (amended): in the AwaitingTitle step a text is accepted as the
title — stored STRIPPED of surrounding whitespace, not verbatim — and the
session moves to AwaitingCategory, provided the stripped text is non-empty,
is not a purely numeric string of at most 10 characters (those are
dispatched to the code search before any session handling), is none of the
reserved keyboard texts (the five main-menu buttons, back-to-genres,
previous page, next page), and is not a movie-button text (`🎬 …` with both
parentheses). -/
theorem title_step_accepts_filtered_text (writeOk : Bool) (text : Str)
    (st : BotState) (sess : Session) (hS : st.session = some sess)
    (hstep : sess.step = Step.title)
    (h0 : stripWs text ≠ [])
    (h1 : ¬(pyIsDigit (stripWs text) = true ∧ (stripWs text).length ≤ 10))
    (h2 : stripWs text ∉ [btnCategories, btnSearchMenu, btnHelp, btnInfo,
      btnMainMenu, btnBackToGenres, btnPrev, btnNext])
    (h3 : ¬(movieMark.isPrefixOf (stripWs text) = true ∧ '(' ∈ stripWs text ∧
      ')' ∈ stripWs text)) :
    handleMessageText writeOk text st =
      ({ st with session := some ({ sess with title := some (stripWs text), step := Step.category }) }, Reply.titleSaved) := by
  have hfinal : stepHandler writeOk (stripWs text) st =
      ({ st with session := some ({ sess with title := some (stripWs text), step := Step.category }) }, Reply.titleSaved) := by
    unfold stepHandler
    rw [hS]
    dsimp only
    rw [hstep]
    dsimp only
    rw [if_neg (by simp [List.isEmpty_iff, h0])]
  have hg : searchGuard (stripWs text) = false := by
    unfold searchGuard
    by_cases hd : pyIsDigit (stripWs text) = true
    · have hlen : ¬ ((stripWs text).length ≤ 10) := fun hl => h1 ⟨hd, hl⟩
      simp [decide_eq_false hlen]
    · simp [Bool.eq_false_iff.mpr hd]
  have n1 : stripWs text ≠ btnCategories := fun h => h2 (by rw [h]; simp)
  have n2 : stripWs text ≠ btnSearchMenu := fun h => h2 (by rw [h]; simp)
  have n3 : stripWs text ≠ btnHelp := fun h => h2 (by rw [h]; simp)
  have n4 : stripWs text ≠ btnInfo := fun h => h2 (by rw [h]; simp)
  have n5 : stripWs text ≠ btnMainMenu := fun h => h2 (by rw [h]; simp)
  have n6 : stripWs text ≠ btnBackToGenres := fun h => h2 (by rw [h]; simp)
  have n7 : stripWs text ≠ btnPrev := fun h => h2 (by rw [h]; simp)
  have n8 : stripWs text ≠ btnNext := fun h => h2 (by rw [h]; simp)
  unfold handleMessageText
  simp only [hg, Bool.false_eq_true, if_false, if_neg n1, if_neg n2, if_neg n3,
    if_neg n4, if_neg n5]
  by_cases hf : folderMark.isPrefixOf (stripWs text) = true
  · rw [if_pos (by rw [hf, hS]; rfl)]
    rw [hS]
    simp only [hstep, reduceCtorEq, if_false, hfinal]
  · have hf' : folderMark.isPrefixOf (stripWs text) = false :=
      Bool.eq_false_iff.mpr hf
    rw [if_neg (by simp [hf'])]
    by_cases hnc : stripWs text = btnNewCategory
    · rw [if_pos (by rw [hnc, hS]; simp)]
      rw [hS]
      simp only [hstep, reduceCtorEq, if_false, hfinal]
    · rw [if_neg (by simp [hnc])]
      rw [if_neg n6, if_neg (by simp [hf'])]
      by_cases hm : movieMark.isPrefixOf (stripWs text) = true
      · rw [if_pos hm]
        rw [if_neg (fun hparen => h3 ⟨hm, hparen⟩), hfinal]
      · have hm' : movieMark.isPrefixOf (stripWs text) = false :=
          Bool.eq_false_iff.mpr hm
        rw [if_neg (by simp [hm'])]
        rw [if_neg n7, if_neg n8, hfinal]

def sessT : Session := ⟨("A12").toList, 2, 1, ("f").toList, none, Step.title⟩

def stT : BotState := ⟨emptyDB, some sessT, none⟩

theorem title_step_accepts_filtered_text_witness :
    handleMessageText true (("My Movie").toList) stT =
      ({ stT with session := some ({ sessT with title := some (("My Movie").toList), step := Step.category }) }, Reply.titleSaved) :=
  title_step_accepts_filtered_text true (("My Movie").toList) stT sessT rfl rfl
    (by decide) (by decide) (by decide) (by decide)

/-- Claim C7 (counterexample): in the AwaitingTitle step the non-empty text
`123` is NOT accepted verbatim as the title and the session does NOT move
to AwaitingCategory — the text is dispatched to the code search and the
session is left in the title step with no title collected. -/
theorem title_step_numeric_refuted :
    (handleMessageText true (("123").toList) stT).1 = stT ∧
    (handleMessageText true (("123").toList) stT).2 =
      Reply.searchReply (searchAndSend (("123").toList) emptyDB) ∧
    stT.session = some sessT ∧ sessT.step = Step.title ∧ sessT.title = none ∧
    (handleMessageText true (("123").toList) stT).1.session ≠
      some ({ sessT with title := some (("123").toList), step := Step.category }) := by
  decide

end MovieBot
